import Mathlib

/-!
Shallow embedding of `torch/ao/quantization/_pt2e/prepare.py`, the observer
insertion pass for PT2E quantization, together with theorems about its
argument-rewriting and observer-insertion behaviour.

The pass itself (the functions defined in `prepare.py`) is translated
directly from the source.  The collaborators it imports from
`torch.ao.quantization.fx.prepare` are not part of the source under
verification; they are kept opaque as fields of an `Env` record, except for
the few whose behaviour the specification pins down, which are modelled from
the spec and marked as such in their doc comments.
-/

/-- Tensor dtypes relevant to the pass. `float` stands for `torch.float`
(float32); the quantized dtypes are representatives of non-default targets. -/
inductive DType where
  | float
  | float16
  | int8
  | uint8
  | int32
deriving DecidableEq, Repr

/-- An observer / fake-quantize instance (`ObserverOrFakeQuantize`).  The
`id` field models Python object identity (aliasing of one descriptor between
several registry entries is sharing); `dtype`/`isDynamic` are the data that
`_get_dtype_and_is_dynamic` extracts. -/
structure Descriptor where
  id : Nat
  dtype : Option DType
  isDynamic : Bool
deriving DecidableEq, Repr

/-- Modelled from the spec: `_get_dtype_and_is_dynamic` is imported from
`torch.ao.quantization.fx.prepare` (not in the verified source).  Per the
spec, a descriptor "resolves to a (target dtype, is-dynamic) pair"; an absent
observer resolves to (no dtype, static). -/
def _get_dtype_and_is_dynamic : Option Descriptor → Option DType × Bool
  | none => (none, false)
  | some d => (d.dtype, d.isDynamic)

/-- Registry keys (`EdgeOrNode`): either a single node (output side) or a
(producer, consumer) pair (a specific edge). -/
abbrev EdgeOrNode := Sum Nat (Nat × Nat)

/-- The observer registry `obs_or_fq_map`: a Python dict from edge-or-node
keys to observer instances, modelled as an association list with
last-write-wins update. -/
abbrev Registry := List (EdgeOrNode × Descriptor)

/-- Dict lookup `m[k]` / `k in m`. -/
def Registry.find (r : Registry) (k : EdgeOrNode) : Option Descriptor :=
  (List.find? (fun p => decide (p.1 = k)) r).map Prod.snd

/-- Dict update `m[k] = v` (overwrites any previous binding of `k`). -/
def Registry.set (r : Registry) (k : EdgeOrNode) (v : Descriptor) : Registry :=
  (k, v) :: List.filter (fun p => decide (¬ p.1 = k)) r

/-- The keys currently bound in the registry. -/
def Registry.keys (r : Registry) : List EdgeOrNode :=
  r.map Prod.fst

/-- One positional argument of an FX node: a literal scalar, a reference to a
producing node, or a (possibly nested) `list` / `tuple` of arguments.  The two
sequence constructors record the concrete Python container kind. -/
inductive Arg where
  | scalar : Int → Arg
  | node : Nat → Arg
  | listArg : List Arg → Arg
  | tupleArg : List Arg → Arg

mutual

/-- Node ids referenced by an argument (used to derive `node.users`). -/
def argNodes : Arg → List Nat
  | .scalar _ => []
  | .node a => [a]
  | .listArg xs => argNodesList xs
  | .tupleArg xs => argNodesList xs

/-- Node ids referenced by a list of arguments. -/
def argNodesList : List Arg → List Nat
  | [] => []
  | x :: xs => argNodes x ++ argNodesList xs

end

/-- Per-node quantization metadata: the two boolean-ish facts the core reads
from `node.meta["quantization_annotation"]`.  The per-edge requirement data
carried by the same record is opaque to the core and lives in `Env`. -/
structure QuantizationAnnot where
  inputOutputShareObservers : Bool
  reuseInputObsOrFq : Bool
deriving DecidableEq, Repr

instance : Inhabited QuantizationAnnot := ⟨⟨false, false⟩⟩

/-- FX node operation kinds dispatched on by `prepare`. -/
inductive Op where
  | placeholder
  | callModule
  | callMethod
  | callFunction
  | getAttr
  | output
  | other
deriving DecidableEq, Repr

/-- The traced FX graph, nodes addressed by `Nat` ids.  `meta` is the
optional `quantization_annotation` entry of `node.meta`; `valMeta` is `none`
when `"val"` is absent from `node.meta` and `some b` when present with
`b` = whether the value is a `FakeTensor`; `isObs` marks nodes for which
`_is_activation_post_process_node` holds (inserted observer module calls);
`nextId` is the id the next created node receives. -/
structure Graph where
  nodes : List Nat
  op : Nat → Op
  args : Nat → List Arg
  kwargs : Nat → List Arg
  meta : Nat → Option QuantizationAnnot
  valMeta : Nat → Option Bool
  isObs : Nat → Bool
  obsDescr : Nat → Option Descriptor
  nextId : Nat

/-- The consumers (`node.users`) of `n`: nodes whose arguments reference `n`. -/
def Graph.users (g : Graph) (n : Nat) : List Nat :=
  g.nodes.filter (fun u => (argNodesList (g.args u)).contains n)

/-- Replace the full positional-argument tuple of node `n` (`node.args = ...`). -/
def Graph.setArgs (g : Graph) (n : Nat) (as : List Arg) : Graph :=
  { g with args := fun m => if m = n then as else g.args m }

mutual

/-- Substitute node reference `old` by `new` inside one argument. -/
def substArg (old new : Nat) : Arg → Arg
  | .scalar v => .scalar v
  | .node a => if a = old then .node new else .node a
  | .listArg xs => .listArg (substArgList old new xs)
  | .tupleArg xs => .tupleArg (substArgList old new xs)

/-- Substitute node reference `old` by `new` inside a list of arguments. -/
def substArgList (old new : Nat) : List Arg → List Arg
  | [] => []
  | x :: xs => substArg old new x :: substArgList old new xs

end

/-- `user.replace_input_with(old, new)`: replace every use of `old` in the
arguments of node `u` by `new`. -/
def Graph.replaceInputWith (g : Graph) (u old new : Nat) : Graph :=
  { g with args := fun m => if m = u then substArgList old new (g.args u) else g.args m }

/-- Modelled from the spec: `_insert_obs_or_fq` is imported from
`torch.ao.quantization.fx.prepare` (not in the verified source).  Per the
spec contract `insert_observer(edge_value, descriptor, graph) -> new_node`,
it creates one fresh observer node consuming `arg`, configured by the
descriptor `d`, and adds it to the graph; nothing else changes. -/
def _insert_obs_or_fq (arg : Nat) (d : Descriptor) (g : Graph) : Nat × Graph :=
  let nid := g.nextId
  (nid,
    { g with
      nodes := g.nodes ++ [nid]
      op := fun m => if m = nid then Op.callModule else g.op m
      args := fun m => if m = nid then [Arg.node arg] else g.args m
      isObs := fun m => if m = nid then true else g.isObs m
      obsDescr := fun m => if m = nid then some d else g.obsDescr m
      nextId := g.nextId + 1 })

/-- Pass state threaded through the rewriting functions: the mutable graph
(`model.graph`) and the shared registry (`obs_or_fq_map`). -/
structure St where
  graph : Graph
  registry : Registry

/-- Modelled from the spec: the collaborators imported from
`torch.ao.quantization.fx.prepare` whose code is not part of the verified
source are kept opaque, as the spec directs ("treated as fixed APIs the core
calls").  Per the spec the two requirement resolvers are pure functions of
the (opaque) annotation data, the edge and the registry contents; the
annotation's per-edge requirement payload is captured inside the closures. -/
structure Env where
  getArgAsInputActObsOrFq : Nat → Nat → Registry → Option Descriptor
  getOutputActObsOrFq : Nat → Registry → Option Descriptor
  outputObsOrFq : Nat → Graph → Registry → Option Descriptor
  isObserverInSameGraph : Nat → Graph → Registry → Bool
  maybeMakeInputOutputShareObservers : Nat → Graph → Bool × Graph
  removeOutputObserver : Nat → Graph → Graph
  insertObserversBeforeGraphOutput : Nat → St → St

/-- `QConfigAny`: `prepare` always threads `None`; the rewriter never reads it. -/
abbrev QConfigAny := Option Nat

mutual

/-- Translation of `_maybe_insert_input_observer_for_arg_or_kwarg`
(prepare.py lines 32-88): given consumer `n` and one argument, decide whether
an input observer must be inserted between producer and consumer, recursing
through list/tuple arguments. -/
def _maybe_insert_input_observer_for_arg_or_kwarg (env : Env) (n : Nat)
    (arg : Arg) (qconfig : QConfigAny) (st : St) : Except String (Arg × St) :=
  match arg with
  | .listArg xs =>
      match rewriteArgList env n xs qconfig st with
      | .error e => .error e
      | .ok (ys, st₂) => .ok (.listArg ys, st₂)
  | .tupleArg xs =>
      match rewriteArgList env n xs qconfig st with
      | .error e => .error e
      | .ok (ys, st₂) => .ok (.tupleArg ys, st₂)
  | .scalar v => .ok (.scalar v, st)
  | .node a =>
      -- quantization_annotation / _reuse_input_obs_or_fq are read but unused here
      let _ann := (st.graph.meta n).getD default
      let _reuse := _ann.reuseInputObsOrFq
      let argInObs := env.getArgAsInputActObsOrFq a n st.registry
      let inPair := _get_dtype_and_is_dynamic argInObs
      let argOutObs := env.getOutputActObsOrFq a st.registry
      let outPair := _get_dtype_and_is_dynamic argOutObs
      if inPair.2 || !(inPair.1 = some DType.float ∨ inPair.1 = none : Bool) then
        if inPair.1 = outPair.1 ∧ inPair.2 = outPair.2 then
          -- the edge piggybacks on the producer-side observer
          if !(st.graph.isObs a) then
            .error ("assertion failed: expected argument to be an activation post process node")
          else
            match argInObs with
            | none => .error ("assertion failed: arg_as_input_act_obs_or_fq is None")
            | some _ =>
                match st.graph.args a with
                | [] => .error ("IndexError: arg.args is empty")
                | observedArg :: _ =>
                    match observedArg with
                    | .node g0 =>
                        match st.registry.find (.inl g0) with
                        | none =>
                            .error ("assertion failed: cannot refer to a node that does not have observer or fake_quant inserted yet")
                        | some d =>
                            .ok (.node a, { st with registry := st.registry.set (.inr (g0, n)) d })
                    | _ => .error ("assertion failed: expect observed argument to be a Node")
        else
          match argInObs with
          | none => .error ("assertion failed: arg_as_input_act_obs_or_fq is None")
          | some dIn =>
              let inserted := _insert_obs_or_fq a dIn st.graph
              .ok (.node inserted.1,
                   { graph := inserted.2,
                     registry := st.registry.set (.inr (a, n)) dIn })
      else
        .ok (.node a, st)

/-- The element-wise traversal performed by the list/tuple branch of
`_maybe_insert_input_observer_for_arg_or_kwarg` (and by
`_maybe_insert_input_observers_for_node` over `node.args`). -/
def rewriteArgList (env : Env) (n : Nat) (xs : List Arg) (qconfig : QConfigAny)
    (st : St) : Except String (List Arg × St) :=
  match xs with
  | [] => .ok ([], st)
  | x :: rest =>
      match _maybe_insert_input_observer_for_arg_or_kwarg env n x qconfig st with
      | .error e => .error e
      | .ok (y, st₁) =>
          match rewriteArgList env n rest qconfig st₁ with
          | .error e => .error e
          | .ok (ys, st₂) => .ok (y :: ys, st₂)

end

/-- Translation of `_maybe_insert_input_observers_for_node` (prepare.py
lines 90-122): rewrite every positional argument, assert kwargs are empty,
then replace the node's argument tuple atomically. -/
def _maybe_insert_input_observers_for_node (env : Env) (n : Nat)
    (qconfig : QConfigAny) (st : St) : Except String St :=
  match rewriteArgList env n (st.graph.args n) qconfig st with
  | .error e => .error e
  | .ok (newArgs, st₁) =>
      if (st₁.graph.kwargs n).length = 0 then
        .ok { st₁ with graph := st₁.graph.setArgs n newArgs }
      else
        .error ("assertion failed: expecting kwargs for aten op IR to be empty")

/-- Modelled from the spec: `_maybe_insert_output_observer_for_node` is
imported from `torch.ao.quantization.fx.prepare` (not in the verified
source).  Per the spec contract it "returns either nothing (no observer
needed) or a newly created observer node consuming node's result"; when an
observer is created, the registry gains the node-keyed entry governing this
node's output. -/
def _maybe_insert_output_observer_for_node (env : Env) (n : Nat) (st : St) :
    Option Nat × St :=
  match env.outputObsOrFq n st.graph st.registry with
  | none => (none, st)
  | some d =>
      let inserted := _insert_obs_or_fq n d st.graph
      (some inserted.1,
       { graph := inserted.2, registry := st.registry.set (.inl n) d })

/-- The redirect loop of `_maybe_insert_input_and_output_observers_for_node`
(prepare.py lines 182-186): for each original user of `n` (except the new
observer itself) replace its use of `n` by `obs`. -/
def redirectUsers (g : Graph) (n obs : Nat) : List Nat → Graph
  | [] => g
  | u :: rest =>
      if u = obs then redirectUsers g n obs rest
      else redirectUsers (g.replaceInputWith u n obs) n obs rest

/-- The `output_is_a_tensor` computation of prepare.py lines 129-136. -/
def outputIsATensor (g : Graph) (n : Nat) : Bool :=
  match g.valMeta n with
  | some b => (g.meta n).isSome && b
  | none => (g.meta n).isSome

/-- Translation of `_maybe_insert_input_and_output_observers_for_node`
(prepare.py lines 124-194). -/
def _maybe_insert_input_and_output_observers_for_node (env : Env) (n : Nat)
    (st : St) : Except String St :=
  let thisNodeDtypeInfo := st.graph.meta n
  if thisNodeDtypeInfo.isNone then
    .ok st
  else
    match _maybe_insert_input_observers_for_node env n none st with
    | .error e => .error e
    | .ok st₁ =>
        if !(outputIsATensor st.graph n) then
          .ok st₁
        else
          match _maybe_insert_output_observer_for_node env n st₁ with
          | (none, st₂) => .ok st₂
          | (some obs, st₂) =>
              let origUsers := st₂.graph.users n
              let g₃ := redirectUsers st₂.graph n obs origUsers
              let sameGraph := env.isObserverInSameGraph n g₃ st₂.registry
              let ann := (g₃.meta n).getD default
              if (ann.inputOutputShareObservers && sameGraph) || ann.reuseInputObsOrFq then
                let merged := env.maybeMakeInputOutputShareObservers n g₃
                if merged.1 then
                  .ok { graph := merged.2, registry := st₂.registry }
                else
                  .ok { graph := env.removeOutputObserver n merged.2, registry := st₂.registry }
              else
                .ok { graph := g₃, registry := st₂.registry }

/-- One iteration of the driver loop of `prepare` (prepare.py lines
206-218): dispatch on the node's operation kind. -/
def prepareStep (env : Env) (st : St) (n : Nat) : Except String St :=
  match st.graph.op n with
  | .placeholder | .callModule | .callMethod | .callFunction | .getAttr =>
      _maybe_insert_input_and_output_observers_for_node env n st
  | .output => .ok (env.insertObserversBeforeGraphOutput n st)
  | .other => .ok st

/-- The driver loop of `prepare` over the snapshot of the node list. -/
def prepareLoop (env : Env) : List Nat → St → Except String St
  | [], st => .ok st
  | n :: ns, st =>
      match prepareStep env st n with
      | .error e => .error e
      | .ok st₁ => prepareLoop env ns st₁

/-- Translation of `prepare` (prepare.py lines 196-232): snapshot the node
list, start from an empty registry, and run the driver loop.  The final
`GraphModule` rebuild and `_save_state` metadata persistence act outside the
graph/registry state modelled here. -/
def prepare (env : Env) (g : Graph) : Except String St :=
  prepareLoop env g.nodes { graph := g, registry := [] }

/-! ## Witness fixtures -/

/-- The graph with no nodes, used as a base for concrete examples. -/
def graph0 : Graph :=
  { nodes := []
    op := fun _ => Op.other
    args := fun _ => []
    kwargs := fun _ => []
    meta := fun _ => none
    valMeta := fun _ => none
    isObs := fun _ => false
    obsDescr := fun _ => none
    nextId := 0 }

instance : Inhabited Graph := ⟨graph0⟩

instance : Inhabited St := ⟨⟨graph0, []⟩⟩

/-- A static int8 input requirement descriptor. -/
def dInt8 : Descriptor := ⟨0, some DType.int8, false⟩

/-- A concrete environment: every tensor argument resolves to a static int8
input requirement, while producer outputs resolve to no observer. -/
def envA : Env :=
  { getArgAsInputActObsOrFq := fun _ _ _ => some dInt8
    getOutputActObsOrFq := fun _ _ => none
    outputObsOrFq := fun _ _ _ => none
    isObserverInSameGraph := fun _ _ _ => false
    maybeMakeInputOutputShareObservers := fun _ g => (false, g)
    removeOutputObserver := fun _ g => g
    insertObserversBeforeGraphOutput := fun _ st => st }

/-- A two-node graph: placeholder `0` feeding consumer `1`. -/
def gA : Graph :=
  { graph0 with
    nodes := [0, 1]
    op := fun m => if m = 0 then Op.placeholder else if m = 1 then Op.callFunction else Op.other
    args := fun m => if m = 1 then [Arg.node 0] else []
    meta := fun m => if m = 1 then some default else none
    nextId := 2 }

/-- Initial state over `gA`. -/
def stA : St := ⟨gA, []⟩

/-! ## C3: default input requirement leaves the argument untouched -/

/-- C3: for a tensor (Node) argument whose resolved input requirement is
default (static, and dtype float32 or unset), the argument rewriter returns
the argument unchanged and performs no graph or registry mutation at all. -/
theorem c3_default_input_requirement_is_noop
    (env : Env) (n a : Nat) (q : QConfigAny) (st : St)
    (hdyn : (_get_dtype_and_is_dynamic (env.getArgAsInputActObsOrFq a n st.registry)).2 = false)
    (hdt : (_get_dtype_and_is_dynamic (env.getArgAsInputActObsOrFq a n st.registry)).1 = some DType.float ∨
           (_get_dtype_and_is_dynamic (env.getArgAsInputActObsOrFq a n st.registry)).1 = none) :
    _maybe_insert_input_observer_for_arg_or_kwarg env n (Arg.node a) q st =
      Except.ok (Arg.node a, st) := by
  rw [_maybe_insert_input_observer_for_arg_or_kwarg]
  rcases hdt with h | h <;> simp [hdyn, h]

/-- The environment `envA` with no input-side requirement on any edge. -/
def envC3 : Env := { envA with getArgAsInputActObsOrFq := fun _ _ _ => none }

/-- Witness for C3 at a concrete input: in `envC3` the edge `0 → 1` has no
input requirement and rewriting leaves argument and state unchanged. -/
theorem c3_default_input_requirement_is_noop_witness :
    (_get_dtype_and_is_dynamic (envC3.getArgAsInputActObsOrFq 0 1 stA.registry)).2 = false ∧
    ((_get_dtype_and_is_dynamic (envC3.getArgAsInputActObsOrFq 0 1 stA.registry)).1 = some DType.float ∨
     (_get_dtype_and_is_dynamic (envC3.getArgAsInputActObsOrFq 0 1 stA.registry)).1 = none) ∧
    _maybe_insert_input_observer_for_arg_or_kwarg envC3 1 (Arg.node 0) none stA =
      Except.ok (Arg.node 0, stA) :=
  ⟨rfl, Or.inr rfl,
    c3_default_input_requirement_is_noop envC3 1 0 none stA rfl (Or.inr rfl)⟩

/-! ## C1: differing non-default requirement inserts exactly one observer -/

/-- Unfolding lemma: the dtype extracted from a present observer. -/
theorem get_dtype_some_fst (d : Descriptor) :
    (_get_dtype_and_is_dynamic (some d)).1 = d.dtype := rfl

/-- Unfolding lemma: the dynamic-ness extracted from a present observer. -/
theorem get_dtype_some_snd (d : Descriptor) :
    (_get_dtype_and_is_dynamic (some d)).2 = d.isDynamic := rfl

/-- C1: for a tensor (Node) argument whose resolved input requirement is
non-default and differs from the producer-side output requirement, the
argument rewriter inserts exactly one new observer node (appended to the node
list), wired between producer `a` and consumer `n` (its sole input is `a`),
configured by the input-side descriptor, records the mapping
`(a, n) ↦ descriptor` in the registry, and returns the new observer node as
the replacement argument. -/
theorem c1_differing_requirement_inserts_one_observer
    (env : Env) (n a : Nat) (q : QConfigAny) (st : St) (d : Descriptor)
    (hres : env.getArgAsInputActObsOrFq a n st.registry = some d)
    (hnd : d.isDynamic = true ∨ (d.dtype ≠ some DType.float ∧ d.dtype ≠ none))
    (hne : (d.dtype, d.isDynamic) ≠
           _get_dtype_and_is_dynamic (env.getOutputActObsOrFq a st.registry)) :
    _maybe_insert_input_observer_for_arg_or_kwarg env n (Arg.node a) q st =
      Except.ok (Arg.node st.graph.nextId,
        { graph := (_insert_obs_or_fq a d st.graph).2,
          registry := st.registry.set (.inr (a, n)) d }) ∧
    (_insert_obs_or_fq a d st.graph).2.nodes = st.graph.nodes ++ [st.graph.nextId] ∧
    (_insert_obs_or_fq a d st.graph).2.args st.graph.nextId = [Arg.node a] ∧
    (_insert_obs_or_fq a d st.graph).2.isObs st.graph.nextId = true ∧
    (_insert_obs_or_fq a d st.graph).2.obsDescr st.graph.nextId = some d ∧
    (st.registry.set (.inr (a, n)) d).find (.inr (a, n)) = some d := by
  have hcond : ¬(d.dtype = (_get_dtype_and_is_dynamic (env.getOutputActObsOrFq a st.registry)).1 ∧
      d.isDynamic = (_get_dtype_and_is_dynamic (env.getOutputActObsOrFq a st.registry)).2) := by
    intro h
    exact hne (by rw [Prod.ext_iff]; exact ⟨h.1, h.2⟩)
  have hg : (d.isDynamic || !(decide (d.dtype = some DType.float ∨ d.dtype = none))) = true := by
    rcases hnd with h | ⟨h1, h2⟩
    · simp [h]
    · simp [h1, h2]
  refine ⟨?_, by simp [_insert_obs_or_fq], by simp [_insert_obs_or_fq],
    by simp [_insert_obs_or_fq], by simp [_insert_obs_or_fq],
    by simp [Registry.set, Registry.find]⟩
  rw [_maybe_insert_input_observer_for_arg_or_kwarg]
  simp only [hres, get_dtype_some_fst, get_dtype_some_snd]
  rw [if_pos hg, if_neg hcond]
  rfl

/-- Witness for C1 at a concrete input: edge `0 → 1` in `stA` resolves to a
static int8 input requirement while the producer output resolves to none, so
one observer (node `2`) is inserted between them. -/
theorem c1_differing_requirement_inserts_one_observer_witness :
    envA.getArgAsInputActObsOrFq 0 1 stA.registry = some dInt8 ∧
    (dInt8.isDynamic = true ∨ (dInt8.dtype ≠ some DType.float ∧ dInt8.dtype ≠ none)) ∧
    (dInt8.dtype, dInt8.isDynamic) ≠
      _get_dtype_and_is_dynamic (envA.getOutputActObsOrFq 0 stA.registry) ∧
    (_maybe_insert_input_observer_for_arg_or_kwarg envA 1 (Arg.node 0) none stA =
      Except.ok (Arg.node stA.graph.nextId,
        { graph := (_insert_obs_or_fq 0 dInt8 stA.graph).2,
          registry := stA.registry.set (.inr (0, 1)) dInt8 }) ∧
    (_insert_obs_or_fq 0 dInt8 stA.graph).2.nodes = stA.graph.nodes ++ [stA.graph.nextId] ∧
    (_insert_obs_or_fq 0 dInt8 stA.graph).2.args stA.graph.nextId = [Arg.node 0] ∧
    (_insert_obs_or_fq 0 dInt8 stA.graph).2.isObs stA.graph.nextId = true ∧
    (_insert_obs_or_fq 0 dInt8 stA.graph).2.obsDescr stA.graph.nextId = some dInt8 ∧
    (stA.registry.set (.inr (0, 1)) dInt8).find (.inr (0, 1)) = some dInt8) :=
  ⟨rfl, Or.inr ⟨by decide, by decide⟩, by decide,
    c1_differing_requirement_inserts_one_observer envA 1 0 none stA dInt8 rfl
      (Or.inr ⟨by decide, by decide⟩) (by decide)⟩

/-! ## C2: equal non-default requirement piggybacks on the producer observer -/

/-- C2: for a tensor (Node) argument whose non-default input requirement
exactly equals the producer-side output requirement, the rewriter creates no
new node: it fails with an assertion when the producer argument is not itself
an inserted observer node; it fails with an assertion when the node feeding
that observer (the grandparent) has no registry entry; and otherwise it
registers the (grandparent, consumer) edge under the grandparent's own
registry descriptor and returns the argument unchanged, leaving the graph
untouched. -/
theorem c2_equal_requirement_piggybacks_or_asserts
    (env : Env) (n a : Nat) (q : QConfigAny) (st : St) (d : Descriptor)
    (hres : env.getArgAsInputActObsOrFq a n st.registry = some d)
    (hnd : d.isDynamic = true ∨ (d.dtype ≠ some DType.float ∧ d.dtype ≠ none))
    (heq : (d.dtype, d.isDynamic) =
           _get_dtype_and_is_dynamic (env.getOutputActObsOrFq a st.registry)) :
    (st.graph.isObs a = false →
      _maybe_insert_input_observer_for_arg_or_kwarg env n (Arg.node a) q st =
        Except.error ("assertion failed: expected argument to be an activation post process node")) ∧
    (∀ g0 rest, st.graph.isObs a = true → st.graph.args a = Arg.node g0 :: rest →
      st.registry.find (.inl g0) = none →
      _maybe_insert_input_observer_for_arg_or_kwarg env n (Arg.node a) q st =
        Except.error ("assertion failed: cannot refer to a node that does not have observer or fake_quant inserted yet")) ∧
    (∀ g0 rest dg, st.graph.isObs a = true → st.graph.args a = Arg.node g0 :: rest →
      st.registry.find (.inl g0) = some dg →
      _maybe_insert_input_observer_for_arg_or_kwarg env n (Arg.node a) q st =
        Except.ok (Arg.node a, { st with registry := st.registry.set (.inr (g0, n)) dg })) := by
  have hg : (d.isDynamic || !(decide (d.dtype = some DType.float ∨ d.dtype = none))) = true := by
    rcases hnd with h | ⟨h1, h2⟩
    · simp [h]
    · simp [h1, h2]
  have hcondEq : d.dtype = (_get_dtype_and_is_dynamic (env.getOutputActObsOrFq a st.registry)).1 ∧
      d.isDynamic = (_get_dtype_and_is_dynamic (env.getOutputActObsOrFq a st.registry)).2 :=
    ⟨congrArg Prod.fst heq, congrArg Prod.snd heq⟩
  refine ⟨?_, ?_, ?_⟩
  · intro hObs
    rw [_maybe_insert_input_observer_for_arg_or_kwarg]
    simp only [hres, get_dtype_some_fst, get_dtype_some_snd]
    rw [if_pos hg, if_pos hcondEq]
    simp [hObs]
  · intro g0 rest hObs hargs hfind
    rw [_maybe_insert_input_observer_for_arg_or_kwarg]
    simp only [hres, get_dtype_some_fst, get_dtype_some_snd]
    rw [if_pos hg, if_pos hcondEq]
    simp [hObs, hargs, hfind]
  · intro g0 rest dg hObs hargs hfind
    rw [_maybe_insert_input_observer_for_arg_or_kwarg]
    simp only [hres, get_dtype_some_fst, get_dtype_some_snd]
    rw [if_pos hg, if_pos hcondEq]
    simp [hObs, hargs, hfind]

/-- Input-side descriptor used by the C2 witness. -/
def dIn8 : Descriptor := ⟨6, some DType.int8, false⟩

/-- Grandparent descriptor already registered in the C2 witness state. -/
def dGrand : Descriptor := ⟨9, some DType.int8, false⟩

/-- Environment where the input requirement of every edge and the output
requirement of every producer agree (static int8, distinct instances). -/
def envC2 : Env :=
  { envA with
    getArgAsInputActObsOrFq := fun _ _ _ => some dIn8
    getOutputActObsOrFq := fun _ _ => some ⟨7, some DType.int8, false⟩ }

/-- Graph `0 → 2(observer) → 1` where node `2` is an inserted observer. -/
def gC2 : Graph :=
  { graph0 with
    nodes := [0, 2, 1]
    args := fun m => if m = 2 then [Arg.node 0] else if m = 1 then [Arg.node 2] else []
    isObs := fun m => m == 2
    nextId := 3 }

/-- State over `gC2` whose registry already carries the grandparent entry. -/
def stC2 : St := ⟨gC2, [(.inl 0, dGrand)]⟩

/-- Witness for C2 at a concrete input: rewriting observer argument `2` of
consumer `1` under equal int8 requirements registers the grandparent edge
`(0, 1)` under `dGrand` and returns the argument unchanged. -/
theorem c2_equal_requirement_piggybacks_or_asserts_witness :
    envC2.getArgAsInputActObsOrFq 2 1 stC2.registry = some dIn8 ∧
    (dIn8.isDynamic = true ∨ (dIn8.dtype ≠ some DType.float ∧ dIn8.dtype ≠ none)) ∧
    (dIn8.dtype, dIn8.isDynamic) =
      _get_dtype_and_is_dynamic (envC2.getOutputActObsOrFq 2 stC2.registry) ∧
    ((stC2.graph.isObs 2 = false →
      _maybe_insert_input_observer_for_arg_or_kwarg envC2 1 (Arg.node 2) none stC2 =
        Except.error ("assertion failed: expected argument to be an activation post process node")) ∧
    (∀ g0 rest, stC2.graph.isObs 2 = true → stC2.graph.args 2 = Arg.node g0 :: rest →
      stC2.registry.find (.inl g0) = none →
      _maybe_insert_input_observer_for_arg_or_kwarg envC2 1 (Arg.node 2) none stC2 =
        Except.error ("assertion failed: cannot refer to a node that does not have observer or fake_quant inserted yet")) ∧
    (∀ g0 rest dg, stC2.graph.isObs 2 = true → stC2.graph.args 2 = Arg.node g0 :: rest →
      stC2.registry.find (.inl g0) = some dg →
      _maybe_insert_input_observer_for_arg_or_kwarg envC2 1 (Arg.node 2) none stC2 =
        Except.ok (Arg.node 2, { stC2 with registry := stC2.registry.set (.inr (g0, 1)) dg }))) :=
  ⟨rfl, Or.inr ⟨by decide, by decide⟩, by decide,
    c2_equal_requirement_piggybacks_or_asserts envC2 1 2 none stC2 dIn8 rfl
      (Or.inr ⟨by decide, by decide⟩) (by decide)⟩

/-! ## Structural lemmas about the argument rewriter -/

/-- Every successful run of the rewriter on a Node argument either leaves the
state unchanged, only adds a grandparent-edge registry entry, or inserts one
observer node; the replacement argument is the old one except in the
insertion case. -/
theorem rewriter_node_characterization (env : Env) (n : Nat) (q : QConfigAny)
    (a : Nat) (st : St) (r : Arg) (st' : St)
    (h : _maybe_insert_input_observer_for_arg_or_kwarg env n (Arg.node a) q st =
         Except.ok (r, st')) :
    (st' = st ∧ r = Arg.node a) ∨
    (∃ g0 dg, st.registry.find (.inl g0) = some dg ∧
      st' = { st with registry := st.registry.set (.inr (g0, n)) dg } ∧ r = Arg.node a) ∨
    (∃ dd, env.getArgAsInputActObsOrFq a n st.registry = some dd ∧
      st' = { graph := (_insert_obs_or_fq a dd st.graph).2,
              registry := st.registry.set (.inr (a, n)) dd } ∧
      r = Arg.node (st.graph.nextId)) := by
  rw [_maybe_insert_input_observer_for_arg_or_kwarg] at h
  by_cases hguard : ((_get_dtype_and_is_dynamic (env.getArgAsInputActObsOrFq a n st.registry)).2
      || !(decide ((_get_dtype_and_is_dynamic (env.getArgAsInputActObsOrFq a n st.registry)).1 = some DType.float ∨
           (_get_dtype_and_is_dynamic (env.getArgAsInputActObsOrFq a n st.registry)).1 = none))) = true
  · rw [if_pos hguard] at h
    by_cases heqq : (_get_dtype_and_is_dynamic (env.getArgAsInputActObsOrFq a n st.registry)).1 =
        (_get_dtype_and_is_dynamic (env.getOutputActObsOrFq a st.registry)).1 ∧
        (_get_dtype_and_is_dynamic (env.getArgAsInputActObsOrFq a n st.registry)).2 =
        (_get_dtype_and_is_dynamic (env.getOutputActObsOrFq a st.registry)).2
    · rw [if_pos heqq] at h
      by_cases hObs : (!st.graph.isObs a) = true
      · rw [if_pos hObs] at h
        exact absurd h (by simp)
      · rw [if_neg hObs] at h
        cases hin : env.getArgAsInputActObsOrFq a n st.registry with
        | none =>
            simp [hin] at h
        | some din =>
            simp only [hin] at h
            cases hargs : st.graph.args a with
            | nil =>
                simp [hargs] at h
            | cons x rest =>
                simp only [hargs] at h
                cases x with
                | node g0 =>
                    cases hfind : st.registry.find (.inl g0) with
                    | none => simp [hfind] at h
                    | some dg =>
                        simp only [hfind] at h
                        injection h with h1
                        injection h1 with h2 h3
                        exact Or.inr (Or.inl ⟨g0, dg, hfind, h3.symm, h2.symm⟩)
                | scalar v => simp at h
                | listArg xs => simp at h
                | tupleArg xs => simp at h
    · rw [if_neg heqq] at h
      cases hin : env.getArgAsInputActObsOrFq a n st.registry with
      | none => simp [hin] at h
      | some din =>
          simp only [hin] at h
          injection h with h1
          injection h1 with h2 h3
          exact Or.inr (Or.inr ⟨din, rfl, h3.symm, h2.symm⟩)
  · rw [if_neg hguard] at h
    injection h with h1
    injection h1 with h2 h3
    exact Or.inl ⟨h3.symm, h2.symm⟩

mutual

/-- Number of atomic (non-sequence) arguments inside one argument. -/
def atomCount : Arg → Nat
  | .scalar _ => 1
  | .node _ => 1
  | .listArg xs => atomCountList xs
  | .tupleArg xs => atomCountList xs

/-- Number of atomic arguments inside a list of arguments. -/
def atomCountList : List Arg → Nat
  | [] => 0
  | x :: xs => atomCount x + atomCountList xs

end

mutual

/-- A successful rewriter run only appends nodes to the graph (never deletes
any), and appends at most one node per atomic argument processed. -/
theorem rewriter_appends_nodes (env : Env) (n : Nat) (q : QConfigAny) :
    ∀ (arg : Arg) (st : St) (r : Arg) (st' : St),
      _maybe_insert_input_observer_for_arg_or_kwarg env n arg q st = Except.ok (r, st') →
      ∃ new, st'.graph.nodes = st.graph.nodes ++ new ∧ new.length ≤ atomCount arg
  | .scalar v, st, r, st', h => by
      rw [_maybe_insert_input_observer_for_arg_or_kwarg] at h
      injection h with h1
      injection h1 with h2 h3
      exact ⟨[], by simp [← h3], by simp⟩
  | .node a, st, r, st', h => by
      rcases rewriter_node_characterization env n q a st r st' h with
        ⟨hst, _⟩ | ⟨g0, dg, _, hst, _⟩ | ⟨dd, _, hst, _⟩
      · exact ⟨[], by simp [hst], by simp⟩
      · exact ⟨[], by simp [hst], by simp [atomCount]⟩
      · exact ⟨[st.graph.nextId], by simp [hst, _insert_obs_or_fq], by simp [atomCount]⟩
  | .listArg xs, st, r, st', h => by
      rw [_maybe_insert_input_observer_for_arg_or_kwarg] at h
      cases hl : rewriteArgList env n xs q st with
      | error e => rw [hl] at h; exact absurd h (by simp)
      | ok p =>
          obtain ⟨ys, st₂⟩ := p
          rw [hl] at h
          injection h with h1
          injection h1 with h2 h3
          obtain ⟨new, hnew, hlen⟩ := rewriteArgList_appends_nodes env n q xs st ys st₂ hl
          exact ⟨new, by rw [← h3]; exact hnew, by simpa [atomCount] using hlen⟩
  | .tupleArg xs, st, r, st', h => by
      rw [_maybe_insert_input_observer_for_arg_or_kwarg] at h
      cases hl : rewriteArgList env n xs q st with
      | error e => rw [hl] at h; exact absurd h (by simp)
      | ok p =>
          obtain ⟨ys, st₂⟩ := p
          rw [hl] at h
          injection h with h1
          injection h1 with h2 h3
          obtain ⟨new, hnew, hlen⟩ := rewriteArgList_appends_nodes env n q xs st ys st₂ hl
          exact ⟨new, by rw [← h3]; exact hnew, by simpa [atomCount] using hlen⟩

/-- List version of `rewriter_appends_nodes`. -/
theorem rewriteArgList_appends_nodes (env : Env) (n : Nat) (q : QConfigAny) :
    ∀ (xs : List Arg) (st : St) (ys : List Arg) (st' : St),
      rewriteArgList env n xs q st = Except.ok (ys, st') →
      ∃ new, st'.graph.nodes = st.graph.nodes ++ new ∧ new.length ≤ atomCountList xs
  | [], st, ys, st', h => by
      rw [rewriteArgList] at h
      injection h with h1
      injection h1 with h2 h3
      exact ⟨[], by simp [← h3], by simp [atomCountList]⟩
  | x :: rest, st, ys, st', h => by
      rw [rewriteArgList] at h
      cases hx : _maybe_insert_input_observer_for_arg_or_kwarg env n x q st with
      | error e => rw [hx] at h; exact absurd h (by simp)
      | ok p =>
          obtain ⟨y, st₁⟩ := p
          rw [hx] at h
          cases hr : rewriteArgList env n rest q st₁ with
          | error e => simp only [hr] at h; exact absurd h (by simp)
          | ok p2 =>
              obtain ⟨ys₂, st₂⟩ := p2
              simp only [hr] at h
              injection h with h1
              injection h1 with h2 h3
              obtain ⟨new₁, hnew₁, hlen₁⟩ := rewriter_appends_nodes env n q x st y st₁ hx
              obtain ⟨new₂, hnew₂, hlen₂⟩ := rewriteArgList_appends_nodes env n q rest st₁ ys₂ st₂ hr
              refine ⟨new₁ ++ new₂, ?_, ?_⟩
              · rw [← h3, hnew₂, hnew₁, List.append_assoc]
              · simpa [atomCountList] using Nat.add_le_add hlen₁ hlen₂

end

/-! ## C8: node creation per rewriter call (corrected) -/

/-- Counterexample to C8 as stated: one single call of the argument rewriter
on the list argument `[node 0, node 0]` (as for `torch.cat([x, x])`) creates
two new graph nodes (`2` and `3`), not "exactly zero or one". -/
theorem c8_counterexample_two_nodes_in_one_call :
    stA.graph.nodes = [0, 1] ∧
    Except.map (fun p => p.2.graph.nodes)
      (_maybe_insert_input_observer_for_arg_or_kwarg envA 1
        (Arg.listArg [Arg.node 0, Arg.node 0]) none stA) =
      Except.ok [0, 1, 2, 3] :=
  ⟨rfl, rfl⟩

/-- C8 amended: every successful call of the argument rewriter only appends
newly created nodes to the graph (it never deletes an existing node), and it
creates at most one new node per atomic (non-sequence) argument processed —
in particular at most one for a scalar or Node argument, and at most one per
element for list/tuple arguments. -/
theorem c8_amended_rewriter_creates_at_most_one_node_per_atom
    (env : Env) (n : Nat) (q : QConfigAny) (arg : Arg) (st : St) (r : Arg) (st' : St)
    (h : _maybe_insert_input_observer_for_arg_or_kwarg env n arg q st = Except.ok (r, st')) :
    ∃ new, st'.graph.nodes = st.graph.nodes ++ new ∧
      new.length ≤ atomCount arg ∧
      ∀ m ∈ st.graph.nodes, m ∈ st'.graph.nodes := by
  obtain ⟨new, hnew, hlen⟩ := rewriter_appends_nodes env n q arg st r st' h
  exact ⟨new, hnew, hlen, fun m hm => by rw [hnew]; exact List.mem_append_left _ hm⟩

/-- Witness for the amended C8 at a concrete input: the single-node argument
`node 0` under `envA` creates exactly the one node `2`. -/
theorem c8_amended_rewriter_creates_at_most_one_node_per_atom_witness :
    _maybe_insert_input_observer_for_arg_or_kwarg envA 1 (Arg.node 0) none stA =
      Except.ok (Arg.node stA.graph.nextId,
        { graph := (_insert_obs_or_fq 0 dInt8 stA.graph).2,
          registry := stA.registry.set (.inr (0, 1)) dInt8 }) ∧
    (∃ new, (_insert_obs_or_fq 0 dInt8 stA.graph).2.nodes = stA.graph.nodes ++ new ∧
      new.length ≤ atomCount (Arg.node 0) ∧
      ∀ m ∈ stA.graph.nodes, m ∈ (_insert_obs_or_fq 0 dInt8 stA.graph).2.nodes) :=
  ⟨rfl,
    c8_amended_rewriter_creates_at_most_one_node_per_atom envA 1 none (Arg.node 0) stA
      (Arg.node stA.graph.nextId)
      { graph := (_insert_obs_or_fq 0 dInt8 stA.graph).2,
        registry := stA.registry.set (.inr (0, 1)) dInt8 } rfl⟩

/-! ## C7: sequence arguments preserve kind, length and element order -/

/-- The element-wise traversal returns one output element per input element,
in order: the i-th output is the rewrite of the i-th input (in the state the
traversal threads to position i). -/
theorem rewriteArgList_length_order (env : Env) (n : Nat) (q : QConfigAny) :
    ∀ (xs : List Arg) (st : St) (ys : List Arg) (st' : St),
      rewriteArgList env n xs q st = Except.ok (ys, st') →
      ys.length = xs.length ∧
      ∀ i (h : i < xs.length) (h' : i < ys.length), ∃ s₁ s₂,
        _maybe_insert_input_observer_for_arg_or_kwarg env n (xs.get ⟨i, h⟩) q s₁ =
          Except.ok (ys.get ⟨i, h'⟩, s₂) := by
  intro xs
  induction xs with
  | nil =>
      intro st ys st' h
      rw [rewriteArgList] at h
      injection h with h1
      injection h1 with h2 h3
      subst h2
      exact ⟨rfl, fun i h _ => absurd h (Nat.not_lt_zero i)⟩
  | cons x rest ih =>
      intro st ys st' h
      rw [rewriteArgList] at h
      cases hx : _maybe_insert_input_observer_for_arg_or_kwarg env n x q st with
      | error e => rw [hx] at h; exact absurd h (by simp)
      | ok p =>
          obtain ⟨y, st₁⟩ := p
          rw [hx] at h
          cases hr : rewriteArgList env n rest q st₁ with
          | error e => simp only [hr] at h; exact absurd h (by simp)
          | ok p2 =>
              obtain ⟨ys₂, st₂⟩ := p2
              simp only [hr] at h
              injection h with h1
              injection h1 with h2 h3
              subst h2
              obtain ⟨hlen, hord⟩ := ih st₁ ys₂ st₂ hr
              refine ⟨by simp [hlen], ?_⟩
              intro i hi hi'
              cases i with
              | zero => exact ⟨st, st₁, by simpa using hx⟩
              | succ j =>
                  have hj : j < rest.length := Nat.lt_of_succ_lt_succ hi
                  have hj' : j < ys₂.length := Nat.lt_of_succ_lt_succ hi'
                  obtain ⟨s₁, s₂, hs⟩ := hord j hj hj'
                  exact ⟨s₁, s₂, by simpa using hs⟩

/-- C7: rewriting a list argument yields a list, rewriting a tuple argument
yields a tuple, in both cases of the same length as the input and with the
i-th output element being the rewrite of the i-th input element (element
order is preserved). -/
theorem c7_sequence_arguments_preserve_kind_length_order
    (env : Env) (n : Nat) (q : QConfigAny) (xs : List Arg) (st : St) :
    (∀ r st', _maybe_insert_input_observer_for_arg_or_kwarg env n (Arg.listArg xs) q st =
        Except.ok (r, st') →
      ∃ ys, r = Arg.listArg ys ∧ ys.length = xs.length ∧
        ∀ i (h : i < xs.length) (h' : i < ys.length), ∃ s₁ s₂,
          _maybe_insert_input_observer_for_arg_or_kwarg env n (xs.get ⟨i, h⟩) q s₁ =
            Except.ok (ys.get ⟨i, h'⟩, s₂)) ∧
    (∀ r st', _maybe_insert_input_observer_for_arg_or_kwarg env n (Arg.tupleArg xs) q st =
        Except.ok (r, st') →
      ∃ ys, r = Arg.tupleArg ys ∧ ys.length = xs.length ∧
        ∀ i (h : i < xs.length) (h' : i < ys.length), ∃ s₁ s₂,
          _maybe_insert_input_observer_for_arg_or_kwarg env n (xs.get ⟨i, h⟩) q s₁ =
            Except.ok (ys.get ⟨i, h'⟩, s₂)) := by
  constructor
  · intro r st' h
    rw [_maybe_insert_input_observer_for_arg_or_kwarg] at h
    cases hl : rewriteArgList env n xs q st with
    | error e => rw [hl] at h; exact absurd h (by simp)
    | ok p =>
        obtain ⟨ys, st₂⟩ := p
        rw [hl] at h
        injection h with h1
        injection h1 with h2 h3
        obtain ⟨hlen, hord⟩ := rewriteArgList_length_order env n q xs st ys st₂ hl
        exact ⟨ys, h2.symm, hlen, hord⟩
  · intro r st' h
    rw [_maybe_insert_input_observer_for_arg_or_kwarg] at h
    cases hl : rewriteArgList env n xs q st with
    | error e => rw [hl] at h; exact absurd h (by simp)
    | ok p =>
        obtain ⟨ys, st₂⟩ := p
        rw [hl] at h
        injection h with h1
        injection h1 with h2 h3
        obtain ⟨hlen, hord⟩ := rewriteArgList_length_order env n q xs st ys st₂ hl
        exact ⟨ys, h2.symm, hlen, hord⟩

instance : Inhabited Arg := ⟨Arg.scalar 0⟩

/-- The concrete rewriter run used by the C7 witness. -/
def c7run : Arg × St :=
  (_maybe_insert_input_observer_for_arg_or_kwarg envA 1
    (Arg.listArg [Arg.node 0, Arg.node 0]) none stA).toOption.getD default

/-- Witness for C7 at a concrete input: rewriting the 2-element list argument
of node `1` under `envA` returns a list of length 2 whose elements are the
element-wise rewrites. -/
theorem c7_sequence_arguments_preserve_kind_length_order_witness :
    _maybe_insert_input_observer_for_arg_or_kwarg envA 1
      (Arg.listArg [Arg.node 0, Arg.node 0]) none stA = Except.ok (c7run.1, c7run.2) ∧
    ∃ ys, c7run.1 = Arg.listArg ys ∧ ys.length = [Arg.node 0, Arg.node 0].length ∧
      ∀ i (h : i < [Arg.node 0, Arg.node 0].length) (h' : i < ys.length), ∃ s₁ s₂,
        _maybe_insert_input_observer_for_arg_or_kwarg envA 1
            ([Arg.node 0, Arg.node 0].get ⟨i, h⟩) none s₁ =
          Except.ok (ys.get ⟨i, h'⟩, s₂) :=
  ⟨rfl,
    (c7_sequence_arguments_preserve_kind_length_order envA 1 none
      [Arg.node 0, Arg.node 0] stA).1 c7run.1 c7run.2 rfl⟩

/-! ## C9: unannotated nodes are left untouched -/

/-- C9: a node whose metadata carries no quantization annotation is skipped
entirely: the node-observer inserter returns the state unchanged — identical
arguments, no new nodes, no registry entries. -/
theorem c9_unannotated_node_left_untouched (env : Env) (n : Nat) (st : St)
    (h : st.graph.meta n = none) :
    _maybe_insert_input_and_output_observers_for_node env n st = Except.ok st := by
  rw [_maybe_insert_input_and_output_observers_for_node]
  simp [h]

/-- Witness for C9 at a concrete input: node `0` of `stA` carries no
annotation and is left untouched. -/
theorem c9_unannotated_node_left_untouched_witness :
    stA.graph.meta 0 = none ∧
    _maybe_insert_input_and_output_observers_for_node envA 0 stA = Except.ok stA :=
  ⟨rfl, c9_unannotated_node_left_untouched envA 0 stA rfl⟩

/-! ## C10: the rewriter ignores qconfig and the reuse flag -/

/-- Flip the `_reuse_input_obs_or_fq` flag of the annotation of node `n` (a
no-op when `n` carries no annotation). -/
def Graph.setReuse (g : Graph) (n : Nat) (b : Bool) : Graph :=
  { g with
    meta := fun m =>
      if m = n then (g.meta m).map (fun a => { a with reuseInputObsOrFq := b })
      else g.meta m }

/-- Inserting an observer node commutes with flipping the reuse flag. -/
theorem insert_setReuse_comm (a : Nat) (d : Descriptor) (g : Graph) (n : Nat) (b : Bool) :
    (_insert_obs_or_fq a d (g.setReuse n b)).2 = ((_insert_obs_or_fq a d g).2).setReuse n b := rfl

mutual

/-- The argument rewriter reads neither its `qconfig` parameter nor the
consumer's `_reuse_input_obs_or_fq` flag: its result is the same for any
qconfig value and any value of the flag (up to the flag itself persisting in
the returned graph). -/
theorem rewriter_ignores_qconfig_and_reuse (env : Env) (n : Nat) :
    ∀ (arg : Arg) (q₁ q₂ : QConfigAny) (b : Bool) (st : St),
      _maybe_insert_input_observer_for_arg_or_kwarg env n arg q₂
          ⟨st.graph.setReuse n b, st.registry⟩ =
        Except.map (fun p => (p.1, (⟨p.2.graph.setReuse n b, p.2.registry⟩ : St)))
          (_maybe_insert_input_observer_for_arg_or_kwarg env n arg q₁ st)
  | .scalar v, q₁, q₂, b, st => rfl
  | .node a, q₁, q₂, b, st => by
      rw [_maybe_insert_input_observer_for_arg_or_kwarg,
          _maybe_insert_input_observer_for_arg_or_kwarg]
      dsimp only [Graph.setReuse]
      by_cases hguard : ((_get_dtype_and_is_dynamic (env.getArgAsInputActObsOrFq a n st.registry)).2
          || !(decide ((_get_dtype_and_is_dynamic (env.getArgAsInputActObsOrFq a n st.registry)).1 = some DType.float ∨
               (_get_dtype_and_is_dynamic (env.getArgAsInputActObsOrFq a n st.registry)).1 = none))) = true
      · rw [if_pos hguard, if_pos hguard]
        by_cases heqq : (_get_dtype_and_is_dynamic (env.getArgAsInputActObsOrFq a n st.registry)).1 =
            (_get_dtype_and_is_dynamic (env.getOutputActObsOrFq a st.registry)).1 ∧
            (_get_dtype_and_is_dynamic (env.getArgAsInputActObsOrFq a n st.registry)).2 =
            (_get_dtype_and_is_dynamic (env.getOutputActObsOrFq a st.registry)).2
        · rw [if_pos heqq, if_pos heqq]
          by_cases hObs : (!st.graph.isObs a) = true
          · rw [if_pos hObs, if_pos hObs]
            rfl
          · rw [if_neg hObs, if_neg hObs]
            cases hin : env.getArgAsInputActObsOrFq a n st.registry with
            | none => simp only [hin]; rfl
            | some din =>
                simp only [hin]
                cases hargs : st.graph.args a with
                | nil => simp only [hargs]; rfl
                | cons x rest =>
                    simp only [hargs]
                    cases x with
                    | node g0 =>
                        cases hfind : st.registry.find (.inl g0) with
                        | none => simp only [hfind]; rfl
                        | some dg => simp only [hfind]; rfl
                    | scalar v => rfl
                    | listArg xs => rfl
                    | tupleArg xs => rfl
        · rw [if_neg heqq, if_neg heqq]
          cases hin : env.getArgAsInputActObsOrFq a n st.registry with
          | none => simp only [hin]; rfl
          | some din => simp only [hin]; rfl
      · rw [if_neg hguard, if_neg hguard]
        rfl
  | .listArg xs, q₁, q₂, b, st => by
      rw [_maybe_insert_input_observer_for_arg_or_kwarg,
          _maybe_insert_input_observer_for_arg_or_kwarg]
      rw [rewriteArgList_ignores_qconfig_and_reuse env n xs q₁ q₂ b st]
      cases rewriteArgList env n xs q₁ st with
      | error e => rfl
      | ok p => rfl
  | .tupleArg xs, q₁, q₂, b, st => by
      rw [_maybe_insert_input_observer_for_arg_or_kwarg,
          _maybe_insert_input_observer_for_arg_or_kwarg]
      rw [rewriteArgList_ignores_qconfig_and_reuse env n xs q₁ q₂ b st]
      cases rewriteArgList env n xs q₁ st with
      | error e => rfl
      | ok p => rfl

/-- List version of `rewriter_ignores_qconfig_and_reuse`. -/
theorem rewriteArgList_ignores_qconfig_and_reuse (env : Env) (n : Nat) :
    ∀ (xs : List Arg) (q₁ q₂ : QConfigAny) (b : Bool) (st : St),
      rewriteArgList env n xs q₂ ⟨st.graph.setReuse n b, st.registry⟩ =
        Except.map (fun p => (p.1, (⟨p.2.graph.setReuse n b, p.2.registry⟩ : St)))
          (rewriteArgList env n xs q₁ st)
  | [], q₁, q₂, b, st => rfl
  | x :: rest, q₁, q₂, b, st => by
      rw [rewriteArgList, rewriteArgList]
      rw [rewriter_ignores_qconfig_and_reuse env n x q₁ q₂ b st]
      cases _maybe_insert_input_observer_for_arg_or_kwarg env n x q₁ st with
      | error e => rfl
      | ok p =>
          obtain ⟨y, st₁⟩ := p
          simp only [Except.map]
          rw [rewriteArgList_ignores_qconfig_and_reuse env n rest q₁ q₂ b st₁]
          cases rewriteArgList env n rest q₁ st₁ with
          | error e => rfl
          | ok p2 => rfl

end

/-- C10: the argument rewriter's result is independent of its `qconfig`
parameter (prepare always threads `None`) and of the consumer node's
`_reuse_input_obs_or_fq` annotation flag: for any two qconfig values and any
value of the flag, the rewriter returns the same replacement argument, the
same registry, and the same graph mutations (the graph differing only in the
flag itself, which the rewriter reads but never consults). -/
theorem c10_rewriter_independent_of_qconfig_and_reuse_flag
    (env : Env) (n : Nat) (arg : Arg) (q₁ q₂ : QConfigAny) (b : Bool) (st : St) :
    _maybe_insert_input_observer_for_arg_or_kwarg env n arg q₂
        ⟨st.graph.setReuse n b, st.registry⟩ =
      Except.map (fun p => (p.1, (⟨p.2.graph.setReuse n b, p.2.registry⟩ : St)))
        (_maybe_insert_input_observer_for_arg_or_kwarg env n arg q₁ st) :=
  rewriter_ignores_qconfig_and_reuse env n arg q₁ q₂ b st

/-! ## C4: redirecting the users of a node to its output observer -/

mutual

/-- Substitution of `old` by `new` is idempotent on one argument. -/
theorem substArg_idem (old new : Nat) :
    ∀ x : Arg, substArg old new (substArg old new x) = substArg old new x
  | .scalar v => rfl
  | .node a => by
      by_cases h : a = old
      · simp [substArg, h]
      · simp [substArg, h]
  | .listArg xs => by
      rw [substArg, substArg, substArgList_idem old new xs]
  | .tupleArg xs => by
      rw [substArg, substArg, substArgList_idem old new xs]

/-- Substitution of `old` by `new` is idempotent on argument lists. -/
theorem substArgList_idem (old new : Nat) :
    ∀ xs : List Arg, substArgList old new (substArgList old new xs) = substArgList old new xs
  | [] => rfl
  | x :: xs => by
      rw [substArgList, substArgList, substArg_idem old new x, substArgList_idem old new xs]

end

/-- The redirect loop does not change the arguments of the observer node
itself, nor of any node outside the processed user list. -/
theorem redirectUsers_preserves_args (n obs : Nat) :
    ∀ (us : List Nat) (g : Graph) (v : Nat), (v = obs ∨ v ∉ us) →
      (redirectUsers g n obs us).args v = g.args v
  | [], g, v, _ => rfl
  | u :: rest, g, v, hv => by
      rw [redirectUsers]
      by_cases hu : u = obs
      · rw [if_pos hu]
        refine redirectUsers_preserves_args n obs rest g v ?_
        rcases hv with h | h
        · exact Or.inl h
        · exact Or.inr (fun hm => h (List.mem_cons_of_mem u hm))
      · rw [if_neg hu]
        have hvu : v ≠ u := by
          rcases hv with h | h
          · exact fun he => hu (he ▸ h.symm ▸ rfl)
          · exact fun he => h (he ▸ List.mem_cons_self u rest)
        have hrest : v = obs ∨ v ∉ rest := by
          rcases hv with h | h
          · exact Or.inl h
          · exact Or.inr (fun hm => h (List.mem_cons_of_mem u hm))
        rw [redirectUsers_preserves_args n obs rest (g.replaceInputWith u n obs) v hrest]
        simp [Graph.replaceInputWith, hvu]

/-- Every processed user other than the observer ends up with its uses of `n`
substituted by `obs`. -/
theorem redirectUsers_substitutes (n obs : Nat) :
    ∀ (us : List Nat) (g : Graph) (v : Nat), v ∈ us → v ≠ obs →
      (redirectUsers g n obs us).args v = substArgList n obs (g.args v)
  | [], g, v, hv, _ => absurd hv (List.not_mem_nil v)
  | u :: rest, g, v, hv, hobs => by
      rw [redirectUsers]
      by_cases hu : u = obs
      · rw [if_pos hu]
        have hvrest : v ∈ rest := by
          rcases List.mem_cons.mp hv with h | h
          · exact absurd (h.trans hu) hobs
          · exact h
        exact redirectUsers_substitutes n obs rest g v hvrest hobs
      · rw [if_neg hu]
        by_cases hvu : v = u
        · subst hvu
          by_cases hvrest : v ∈ rest
          · rw [redirectUsers_substitutes n obs rest (g.replaceInputWith v n obs) v hvrest hobs]
            simp [Graph.replaceInputWith, substArgList_idem]
          · rw [redirectUsers_preserves_args n obs rest (g.replaceInputWith v n obs) v
                (Or.inr hvrest)]
            simp [Graph.replaceInputWith]
        · have hvrest : v ∈ rest := by
            rcases List.mem_cons.mp hv with h | h
            · exact absurd h hvu
            · exact h
          rw [redirectUsers_substitutes n obs rest (g.replaceInputWith u n obs) v hvrest hobs]
          simp [Graph.replaceInputWith, Ne.symm, hvu]

/-- C4: when an output observer is created for node `n`, every consumer of
`n` existing at insertion time except the observer itself is redirected to
consume the observer instead (its uses of `n` are substituted by `obs`),
while the observer's own argument stays the original node `n` (no
self-loop); and when no observer-sharing collapse is requested the node
inserter's final graph is exactly this redirected graph. -/
theorem c4_users_redirected_to_output_observer
    (env : Env) (n : Nat) (st st₁ st₂ : St) (obs : Nat) (ann : QuantizationAnnot)
    (hmeta : st.graph.meta n = some ann)
    (htensor : outputIsATensor st.graph n = true)
    (hin : _maybe_insert_input_observers_for_node env n none st = Except.ok st₁)
    (hout : _maybe_insert_output_observer_for_node env n st₁ = (some obs, st₂)) :
    (redirectUsers st₂.graph n obs (st₂.graph.users n)).args obs = [Arg.node n] ∧
    (∀ u ∈ st₂.graph.users n, u ≠ obs →
      (redirectUsers st₂.graph n obs (st₂.graph.users n)).args u =
        substArgList n obs (st₂.graph.args u)) ∧
    ((((((redirectUsers st₂.graph n obs (st₂.graph.users n)).meta n).getD default).inputOutputShareObservers &&
        env.isObserverInSameGraph n (redirectUsers st₂.graph n obs (st₂.graph.users n)) st₂.registry) ||
      (((redirectUsers st₂.graph n obs (st₂.graph.users n)).meta n).getD default).reuseInputObsOrFq) = false →
      _maybe_insert_input_and_output_observers_for_node env n st =
        Except.ok ⟨redirectUsers st₂.graph n obs (st₂.graph.users n), st₂.registry⟩) := by
  have hargsobs : st₂.graph.args obs = [Arg.node n] := by
    cases hd : env.outputObsOrFq n st₁.graph st₁.registry with
    | none =>
        rw [_maybe_insert_output_observer_for_node, hd] at hout
        injection hout with h1 h2
        exact Option.noConfusion h1
    | some d =>
        rw [_maybe_insert_output_observer_for_node, hd] at hout
        injection hout with h1 h2
        injection h1 with h1
        rw [← h2, ← h1]
        simp [_insert_obs_or_fq]
  refine ⟨?_, ?_, ?_⟩
  · rw [redirectUsers_preserves_args n obs (st₂.graph.users n) st₂.graph obs (Or.inl rfl)]
    exact hargsobs
  · intro u hu hne
    exact redirectUsers_substitutes n obs (st₂.graph.users n) st₂.graph u hu hne
  · intro hcond
    rw [_maybe_insert_input_and_output_observers_for_node]
    simp only [hmeta, hin, htensor, hout, Option.isNone_some, Bool.not_true, if_false,
      Bool.false_eq_true, Option.getD_some]
    rw [if_neg (by rw [hcond]; exact Bool.false_ne_true)]

/-! ## C5: observer-sharing collapse control flow -/

/-- C5: after an output observer has been created for node `n`, the inserter
attempts the merge (delegated to `maybeMakeInputOutputShareObservers`) if and
only if (the "input/output share observers" flag is set AND the same-graph
predicate holds) OR the "reuse input obs/fq" flag is set; and exactly when
the attempted merge reports not-applicable, the just-created output observer
is removed (`removeOutputObserver`) instead of failing — in every case the
call returns successfully. -/
theorem c5_share_collapse_merges_or_removes
    (env : Env) (n : Nat) (st st₁ st₂ : St) (obs : Nat) (ann : QuantizationAnnot)
    (hmeta : st.graph.meta n = some ann)
    (htensor : outputIsATensor st.graph n = true)
    (hin : _maybe_insert_input_observers_for_node env n none st = Except.ok st₁)
    (hout : _maybe_insert_output_observer_for_node env n st₁ = (some obs, st₂)) :
    _maybe_insert_input_and_output_observers_for_node env n st =
      Except.ok
        ⟨(if ((((redirectUsers st₂.graph n obs (st₂.graph.users n)).meta n).getD default).inputOutputShareObservers &&
             env.isObserverInSameGraph n (redirectUsers st₂.graph n obs (st₂.graph.users n)) st₂.registry) ||
           (((redirectUsers st₂.graph n obs (st₂.graph.users n)).meta n).getD default).reuseInputObsOrFq then
            (if (env.maybeMakeInputOutputShareObservers n
                  (redirectUsers st₂.graph n obs (st₂.graph.users n))).1 then
              (env.maybeMakeInputOutputShareObservers n
                (redirectUsers st₂.graph n obs (st₂.graph.users n))).2
            else
              env.removeOutputObserver n
                (env.maybeMakeInputOutputShareObservers n
                  (redirectUsers st₂.graph n obs (st₂.graph.users n))).2)
          else redirectUsers st₂.graph n obs (st₂.graph.users n)),
         st₂.registry⟩ := by
  rw [_maybe_insert_input_and_output_observers_for_node]
  simp only [hmeta, hin, htensor, hout, Option.isNone_some, Bool.not_true, if_false,
    Bool.false_eq_true, Option.getD_some]
  by_cases hc : (((((redirectUsers st₂.graph n obs (st₂.graph.users n)).meta n).getD default).inputOutputShareObservers &&
      env.isObserverInSameGraph n (redirectUsers st₂.graph n obs (st₂.graph.users n)) st₂.registry) ||
      (((redirectUsers st₂.graph n obs (st₂.graph.users n)).meta n).getD default).reuseInputObsOrFq) = true
  · rw [if_pos hc, if_pos hc]
    by_cases hm : (env.maybeMakeInputOutputShareObservers n
        (redirectUsers st₂.graph n obs (st₂.graph.users n))).1 = true
    · rw [if_pos hm, if_pos hm]
    · rw [if_neg hm, if_neg hm]
  · rw [if_neg hc, if_neg hc]

/-- Environment for the C4/C5 witnesses: no input requirements, but every
annotated node gets an output observer descriptor. -/
def envW : Env :=
  { envA with
    getArgAsInputActObsOrFq := fun _ _ _ => none
    outputObsOrFq := fun _ _ _ => some ⟨3, some DType.int8, false⟩ }

/-- Graph `0 → 1 → 4` with node `1` annotated. -/
def gW : Graph :=
  { graph0 with
    nodes := [0, 1, 4]
    op := fun m => if m = 0 then Op.placeholder else Op.callFunction
    args := fun m => if m = 1 then [Arg.node 0] else if m = 4 then [Arg.node 1] else []
    meta := fun m => if m = 1 then some default else none
    nextId := 5 }

/-- Initial state over `gW`. -/
def stW : St := ⟨gW, []⟩

/-- State after the input phase of node `1` in the C4/C5 witness run. -/
def st1W : St :=
  (_maybe_insert_input_observers_for_node envW 1 none stW).toOption.getD default

/-- Result of output-observer insertion for node `1` in the witness run. -/
def outW : Option Nat × St := _maybe_insert_output_observer_for_node envW 1 st1W

/-- The new output observer node of the witness run. -/
def obsW : Nat := outW.1.getD 0

/-- State after output-observer insertion in the witness run. -/
def st2W : St := outW.2

/-- Witness for C4 at a concrete input: node `1` of `gW` gets output observer
`5`; its consumer `4` is redirected to `5` while observer `5` keeps consuming
node `1`. -/
theorem c4_users_redirected_to_output_observer_witness :
    stW.graph.meta 1 = some default ∧
    outputIsATensor stW.graph 1 = true ∧
    _maybe_insert_input_observers_for_node envW 1 none stW = Except.ok st1W ∧
    _maybe_insert_output_observer_for_node envW 1 st1W = (some obsW, st2W) ∧
    ((redirectUsers st2W.graph 1 obsW (st2W.graph.users 1)).args obsW = [Arg.node 1] ∧
    (∀ u ∈ st2W.graph.users 1, u ≠ obsW →
      (redirectUsers st2W.graph 1 obsW (st2W.graph.users 1)).args u =
        substArgList 1 obsW (st2W.graph.args u)) ∧
    ((((((redirectUsers st2W.graph 1 obsW (st2W.graph.users 1)).meta 1).getD default).inputOutputShareObservers &&
        envW.isObserverInSameGraph 1 (redirectUsers st2W.graph 1 obsW (st2W.graph.users 1)) st2W.registry) ||
      (((redirectUsers st2W.graph 1 obsW (st2W.graph.users 1)).meta 1).getD default).reuseInputObsOrFq) = false →
      _maybe_insert_input_and_output_observers_for_node envW 1 stW =
        Except.ok ⟨redirectUsers st2W.graph 1 obsW (st2W.graph.users 1), st2W.registry⟩)) :=
  ⟨rfl, rfl, rfl, rfl,
    c4_users_redirected_to_output_observer envW 1 stW st1W st2W obsW default rfl rfl rfl rfl⟩

/-- Witness for C5 at a concrete input: in the witness run the sharing
condition is false (both flags unset), and the inserter returns exactly the
redirected graph with no merge and no removal. -/
theorem c5_share_collapse_merges_or_removes_witness :
    stW.graph.meta 1 = some default ∧
    outputIsATensor stW.graph 1 = true ∧
    _maybe_insert_input_observers_for_node envW 1 none stW = Except.ok st1W ∧
    _maybe_insert_output_observer_for_node envW 1 st1W = (some obsW, st2W) ∧
    _maybe_insert_input_and_output_observers_for_node envW 1 stW =
      Except.ok
        ⟨(if ((((redirectUsers st2W.graph 1 obsW (st2W.graph.users 1)).meta 1).getD default).inputOutputShareObservers &&
             envW.isObserverInSameGraph 1 (redirectUsers st2W.graph 1 obsW (st2W.graph.users 1)) st2W.registry) ||
           (((redirectUsers st2W.graph 1 obsW (st2W.graph.users 1)).meta 1).getD default).reuseInputObsOrFq then
            (if (envW.maybeMakeInputOutputShareObservers 1
                  (redirectUsers st2W.graph 1 obsW (st2W.graph.users 1))).1 then
              (envW.maybeMakeInputOutputShareObservers 1
                (redirectUsers st2W.graph 1 obsW (st2W.graph.users 1))).2
            else
              envW.removeOutputObserver 1
                (envW.maybeMakeInputOutputShareObservers 1
                  (redirectUsers st2W.graph 1 obsW (st2W.graph.users 1))).2)
          else redirectUsers st2W.graph 1 obsW (st2W.graph.users 1)),
         st2W.registry⟩ :=
  ⟨rfl, rfl, rfl, rfl,
    c5_share_collapse_merges_or_removes envW 1 stW st1W st2W obsW default rfl rfl rfl rfl⟩

/-! ## C6: registry growth (corrected) -/

/-- A dict update never removes a key: every key bound before `set` is still
bound afterwards. -/
theorem Registry.keys_set (r : Registry) (k : EdgeOrNode) (v : Descriptor)
    (k' : EdgeOrNode) (h : k' ∈ r.keys) : k' ∈ (r.set k v).keys := by
  by_cases hk : k' = k
  · subst hk
    simp [Registry.set, Registry.keys]
  · obtain ⟨p, hp, hpk⟩ := List.mem_map.mp h
    refine List.mem_cons.mpr (Or.inr ?_)
    refine List.mem_map.mpr ⟨p, ?_, hpk⟩
    refine List.mem_filter.mpr ⟨hp, ?_⟩
    simp [hpk, hk]

mutual

/-- A successful rewriter run never removes a registry key. -/
theorem rewriter_keys_monotone (env : Env) (n : Nat) (q : QConfigAny) :
    ∀ (arg : Arg) (st : St) (r : Arg) (st' : St),
      _maybe_insert_input_observer_for_arg_or_kwarg env n arg q st = Except.ok (r, st') →
      ∀ k ∈ st.registry.keys, k ∈ st'.registry.keys
  | .scalar v, st, r, st', h => by
      rw [_maybe_insert_input_observer_for_arg_or_kwarg] at h
      injection h with h1
      injection h1 with h2 h3
      rw [← h3]
      exact fun k hk => hk
  | .node a, st, r, st', h => by
      rcases rewriter_node_characterization env n q a st r st' h with
        ⟨hst, _⟩ | ⟨g0, dg, _, hst, _⟩ | ⟨dd, _, hst, _⟩
      · rw [hst]; exact fun k hk => hk
      · rw [hst]; exact fun k hk => Registry.keys_set _ _ _ k hk
      · rw [hst]; exact fun k hk => Registry.keys_set _ _ _ k hk
  | .listArg xs, st, r, st', h => by
      rw [_maybe_insert_input_observer_for_arg_or_kwarg] at h
      cases hl : rewriteArgList env n xs q st with
      | error e => rw [hl] at h; exact absurd h (by simp)
      | ok p =>
          obtain ⟨ys, st₂⟩ := p
          rw [hl] at h
          injection h with h1
          injection h1 with h2 h3
          rw [← h3]
          exact rewriteArgList_keys_monotone env n q xs st ys st₂ hl
  | .tupleArg xs, st, r, st', h => by
      rw [_maybe_insert_input_observer_for_arg_or_kwarg] at h
      cases hl : rewriteArgList env n xs q st with
      | error e => rw [hl] at h; exact absurd h (by simp)
      | ok p =>
          obtain ⟨ys, st₂⟩ := p
          rw [hl] at h
          injection h with h1
          injection h1 with h2 h3
          rw [← h3]
          exact rewriteArgList_keys_monotone env n q xs st ys st₂ hl

/-- List version of `rewriter_keys_monotone`. -/
theorem rewriteArgList_keys_monotone (env : Env) (n : Nat) (q : QConfigAny) :
    ∀ (xs : List Arg) (st : St) (ys : List Arg) (st' : St),
      rewriteArgList env n xs q st = Except.ok (ys, st') →
      ∀ k ∈ st.registry.keys, k ∈ st'.registry.keys
  | [], st, ys, st', h => by
      rw [rewriteArgList] at h
      injection h with h1
      injection h1 with h2 h3
      rw [← h3]
      exact fun k hk => hk
  | x :: rest, st, ys, st', h => by
      rw [rewriteArgList] at h
      cases hx : _maybe_insert_input_observer_for_arg_or_kwarg env n x q st with
      | error e => rw [hx] at h; exact absurd h (by simp)
      | ok p =>
          obtain ⟨y, st₁⟩ := p
          rw [hx] at h
          cases hr : rewriteArgList env n rest q st₁ with
          | error e => simp only [hr] at h; exact absurd h (by simp)
          | ok p2 =>
              obtain ⟨ys₂, st₂⟩ := p2
              simp only [hr] at h
              injection h with h1
              injection h1 with h2 h3
              rw [← h3]
              intro k hk
              exact rewriteArgList_keys_monotone env n q rest st₁ ys₂ st₂ hr k
                (rewriter_keys_monotone env n q x st y st₁ hx k hk)

end

/-- The input phase never removes a registry key. -/
theorem input_observers_keys_monotone (env : Env) (n : Nat) (q : QConfigAny)
    (st st' : St) (h : _maybe_insert_input_observers_for_node env n q st = Except.ok st') :
    ∀ k ∈ st.registry.keys, k ∈ st'.registry.keys := by
  rw [_maybe_insert_input_observers_for_node] at h
  cases hl : rewriteArgList env n (st.graph.args n) q st with
  | error e => rw [hl] at h; exact absurd h (by simp)
  | ok p =>
      obtain ⟨newArgs, st₁⟩ := p
      simp only [hl] at h
      by_cases hkw : (st₁.graph.kwargs n).length = 0
      · rw [if_pos hkw] at h
        injection h with h1
        rw [← h1]
        exact rewriteArgList_keys_monotone env n q (st.graph.args n) st newArgs st₁ hl
      · rw [if_neg hkw] at h
        exact absurd h (by simp)

/-- The modelled output-observer insertion never removes a registry key. -/
theorem output_observer_keys_monotone (env : Env) (n : Nat) (st : St) :
    ∀ k ∈ st.registry.keys, k ∈ (_maybe_insert_output_observer_for_node env n st).2.registry.keys := by
  rw [_maybe_insert_output_observer_for_node]
  cases hd : env.outputObsOrFq n st.graph st.registry with
  | none => exact fun k hk => hk
  | some d => exact fun k hk => Registry.keys_set _ _ _ k hk

/-- The node-observer inserter never removes a registry key. -/
theorem inserter_keys_monotone (env : Env) (n : Nat) (st st' : St)
    (h : _maybe_insert_input_and_output_observers_for_node env n st = Except.ok st') :
    ∀ k ∈ st.registry.keys, k ∈ st'.registry.keys := by
  rw [_maybe_insert_input_and_output_observers_for_node] at h
  by_cases hmeta : (st.graph.meta n).isNone = true
  · rw [if_pos hmeta] at h
    injection h with h1
    rw [← h1]
    exact fun k hk => hk
  · rw [if_neg hmeta] at h
    cases hin : _maybe_insert_input_observers_for_node env n none st with
    | error e => rw [hin] at h; exact absurd h (by simp)
    | ok st₁ =>
        simp only [hin] at h
        have hmono₁ := input_observers_keys_monotone env n none st st₁ hin
        by_cases hten : (!outputIsATensor st.graph n) = true
        · rw [if_pos hten] at h
          injection h with h1
          rw [← h1]
          exact hmono₁
        · rw [if_neg hten] at h
          have hmono₂ := output_observer_keys_monotone env n st₁
          cases hout : _maybe_insert_output_observer_for_node env n st₁ with
          | mk o st₂ =>
              rw [hout] at hmono₂
              cases o with
              | none =>
                  simp only [hout] at h
                  injection h with h1
                  rw [← h1]
                  exact fun k hk => hmono₂ k (hmono₁ k hk)
              | some obs =>
                  simp only [hout] at h
                  have hreg : st'.registry = st₂.registry := by
                    by_cases hc : ((((redirectUsers st₂.graph n obs (st₂.graph.users n)).meta n).getD default).inputOutputShareObservers &&
                        env.isObserverInSameGraph n (redirectUsers st₂.graph n obs (st₂.graph.users n)) st₂.registry ||
                        (((redirectUsers st₂.graph n obs (st₂.graph.users n)).meta n).getD default).reuseInputObsOrFq) = true
                    · rw [if_pos hc] at h
                      by_cases hm : (env.maybeMakeInputOutputShareObservers n
                          (redirectUsers st₂.graph n obs (st₂.graph.users n))).1 = true
                      · rw [if_pos hm] at h
                        injection h with h1
                        rw [← h1]
                      · rw [if_neg hm] at h
                        injection h with h1
                        rw [← h1]
                    · rw [if_neg hc] at h
                      injection h with h1
                      rw [← h1]
                  rw [hreg]
                  exact fun k hk => hmono₂ k (hmono₁ k hk)

/-- C6 amended: throughout one run of `prepare`, each driver step only grows
the registry's key set — no binding is ever removed — provided the opaque
before-graph-output helper also preserves keys.  (The value bound to a key
CAN change: see the counterexample, where the same edge is rewritten twice.) -/
theorem c6_amended_registry_keys_grow_per_step
    (env : Env) (st : St) (n : Nat) (st' : St)
    (hout : ∀ (m : Nat) (s : St) (k : EdgeOrNode), k ∈ s.registry.keys →
      k ∈ (env.insertObserversBeforeGraphOutput m s).registry.keys)
    (hstep : prepareStep env st n = Except.ok st') :
    ∀ k ∈ st.registry.keys, k ∈ st'.registry.keys := by
  rw [prepareStep] at hstep
  cases hop : st.graph.op n with
  | placeholder =>
      rw [hop] at hstep
      exact inserter_keys_monotone env n st st' hstep
  | callModule =>
      rw [hop] at hstep
      exact inserter_keys_monotone env n st st' hstep
  | callMethod =>
      rw [hop] at hstep
      exact inserter_keys_monotone env n st st' hstep
  | callFunction =>
      rw [hop] at hstep
      exact inserter_keys_monotone env n st st' hstep
  | getAttr =>
      rw [hop] at hstep
      exact inserter_keys_monotone env n st st' hstep
  | output =>
      rw [hop] at hstep
      injection hstep with h1
      rw [← h1]
      exact fun k hk => hout n st k hk
  | other =>
      rw [hop] at hstep
      injection hstep with h1
      rw [← h1]
      exact fun k hk => hk

/-- Environment modelling a resolver that creates a fresh observer instance
on each query (fresh identity = current registry size), as the spec permits
("pure function of the annotation metadata and Registry contents"). -/
def env6 : Env :=
  { envA with
    getArgAsInputActObsOrFq := fun _ _ reg => some ⟨reg.length, some DType.int8, false⟩ }

/-- Graph for the C6 counterexample: node `1` is `torch.cat([x, x])` with the
same producer `0` appearing twice in one list argument. -/
def g6 : Graph :=
  { graph0 with
    nodes := [0, 1]
    op := fun m => if m = 0 then Op.placeholder else Op.callFunction
    args := fun m => if m = 1 then [Arg.listArg [Arg.node 0, Arg.node 0]] else []
    meta := fun m => if m = 1 then some default else none
    nextId := 2 }

/-- The state `prepare` is in when it starts rewriting node `1` of `g6`. -/
def st6 : St := ⟨g6, []⟩

/-- Counterexample to C6 as stated: during `prepare` on `g6`, the rewrite of
the first list element — exactly the call the traversal performs first —
binds registry key `(0, 1)` to descriptor instance `0`, but the finished run
of `prepare` leaves the same key bound to the different descriptor instance
`1`: the key was reassigned when the duplicated argument was rewritten a
second time. -/
theorem c6_counterexample_registry_key_reassigned :
    Except.map (fun p => p.2.registry.find (.inr (0, 1)))
      (_maybe_insert_input_observer_for_arg_or_kwarg env6 1 (Arg.node 0) none st6) =
      Except.ok (some ⟨0, some DType.int8, false⟩) ∧
    Except.map (fun st => st.registry.find (.inr (0, 1))) (prepare env6 g6) =
      Except.ok (some ⟨1, some DType.int8, false⟩) ∧
    (⟨0, some DType.int8, false⟩ : Descriptor) ≠ ⟨1, some DType.int8, false⟩ :=
  ⟨rfl, rfl, by decide⟩

/-- Witness for the amended C6 at a concrete input: a driver step over node
`3` (an `other`-op node) of the `stC2` state preserves the registered key
`inl 0`, under the identity before-graph-output helper of `envA`. -/
theorem c6_amended_registry_keys_grow_per_step_witness :
    (∀ (m : Nat) (s : St) (k : EdgeOrNode), k ∈ s.registry.keys →
      k ∈ (envA.insertObserversBeforeGraphOutput m s).registry.keys) ∧
    prepareStep envA stC2 3 = Except.ok stC2 ∧
    (Sum.inl 0 : EdgeOrNode) ∈ stC2.registry.keys ∧
    (Sum.inl 0 : EdgeOrNode) ∈ stC2.registry.keys :=
  ⟨fun _ _ _ h => h, rfl, by simp [stC2, Registry.keys],
    c6_amended_registry_keys_grow_per_step envA stC2 3 stC2 (fun _ _ _ h => h) rfl
      (Sum.inl 0) (by simp [stC2, Registry.keys])⟩
